import Mathlib

/-! # SimpleMySQLConnector: the `MySQLConnector` class of `MySQLConnector.hpp`

A shallow embedding of the connector class.  The object is a record of its member
variables, every member function is a function on that record, and every answer of
the MySQL client library (`mysql_query`, `mysql_store_result`, ...) is an explicit
argument of the member function that asks for it.  A member function yields a
`Run`: a normal return, a thrown exception, or undefined behaviour (a null
dereference or an out-of-bounds read), together with the object as it is left and
the library calls that were made.
-/

set_option autoImplicit false

/-! ## C strings -/

/-- The terminating character of a C string. -/
def NUL : Char := Char.ofNat 0

/-- Text denoted by a `const char*` buffer: the characters before the first NUL.
A buffer is given by the characters stored in it; its end also ends the text. -/
def cstr (p : List Char) : List Char := p.takeWhile (fun ch => ch != NUL)

/-- The function `strlen` of `<cstring>`. -/
def strlen (p : List Char) : Nat := (cstr p).length

/-- The function `strcmp` of `<cstring>`: the difference of the first pair of characters that
differ, and zero when both texts end together. -/
def strcmp : List Char → List Char → Int
  | [], s2 => 0 - ((s2.headD NUL).toNat : Int)
  | a :: s1, s2 =>
    if a ≠ s2.headD NUL then (a.toNat : Int) - ((s2.headD NUL).toNat : Int)
    else if a = NUL then 0
    else strcmp s1 s2.tail

/-- The function `strncmp` of `<cstring>`: as `strcmp`, over at most `n` characters. -/
def strncmp (s1 s2 : List Char) : Nat → Int
  | 0 => 0
  | n + 1 =>
    if s1.headD NUL ≠ s2.headD NUL then
      ((s1.headD NUL).toNat : Int) - ((s2.headD NUL).toNat : Int)
    else if s1.headD NUL = NUL then 0
    else strncmp s1.tail s2.tail n

/-- The literal `"SELECT"` of `queryDatabase`. -/
def SELECT_upper : List Char := ['S', 'E', 'L', 'E', 'C', 'T']

/-- The literal `"select"` of `queryDatabase`. -/
def SELECT_lower : List Char := ['s', 'e', 'l', 'e', 'c', 't']

/-! ## Integer conversions -/

/-- Conversion of an unsigned index (`uint64_t`, `unsigned int`) to `int`, the key type
of the cache: the value is reduced modulo `2^32` into the range of `int`. -/
def toInt32 (n : Nat) : Int :=
  if n % 2 ^ 32 < 2 ^ 31 then ((n % 2 ^ 32 : Nat) : Int) else ((n % 2 ^ 32 : Nat) : Int) - 2 ^ 32

/-! ## `std::map<int, V>` -/

/-- A `std::map<int, V>`, given by its entries. -/
abbrev StdMap (V : Type) := List (Int × V)

namespace StdMap

variable {V : Type}

/-- The entry stored under key `k`, if there is one. -/
def find : StdMap V → Int → Option V
  | [], _ => none
  | (k', v) :: rest, k => if k' = k then some v else find rest k

/-- The member `std::map::insert`: adds the entry unless the key is already present. -/
def insert (m : StdMap V) (k : Int) (v : V) : StdMap V :=
  match find m k with
  | some _ => m
  | none => m ++ [(k, v)]

/-- The keys of the map. -/
def keys (m : StdMap V) : List Int := m.map Prod.fst

end StdMap

/-! ## The client library -/

/-- A `MYSQL_ROW`: one cell per field, a cell being a text or a null pointer (SQL NULL). -/
abbrev MYSQL_ROW := List (Option String)

/-- A `MYSQL_RES` as handed out by `mysql_store_result`: the row and field counts the
library reports, and the rows `mysql_fetch_row` has still to deliver. -/
structure MYSQL_RES where
  row_count : Nat
  field_count : Nat
  data : List MYSQL_ROW
  deriving DecidableEq

/-- The call `mysql_num_rows`; its value is a `uint64_t`. -/
def mysql_num_rows (res : MYSQL_RES) : Nat := res.row_count % 2 ^ 64

/-- The call `mysql_num_fields`; its value is an `unsigned int`. -/
def mysql_num_fields (res : MYSQL_RES) : Nat := res.field_count % 2 ^ 32

/-- The call `mysql_fetch_row`: the next row (a null pointer when none is left), and the
result with its cursor advanced. -/
def mysql_fetch_row (res : MYSQL_RES) : Option MYSQL_ROW × MYSQL_RES :=
  (res.data.head?, { res with data := res.data.tail })

/-- The cell the library holds at row `r`, column `c` of a result. -/
def MYSQL_RES.cell (res : MYSQL_RES) (r c : Nat) : Option (Option String) :=
  match res.data.get? r with
  | none => none
  | some row => row.get? c

/-- The result is well formed: as many rows as the library reports, each with as
many cells as it reports fields. -/
def MYSQL_RES.WellFormed (res : MYSQL_RES) : Prop :=
  res.data.length = mysql_num_rows res ∧ ∀ row ∈ res.data, row.length = mysql_num_fields res

/-- The calls into the client library. -/
inductive LibCall where
  | mysql_init
  | mysql_real_connect
  | mysql_query
  | mysql_store_result
  | mysql_num_rows
  | mysql_num_fields
  | mysql_fetch_row
  | mysql_select_db
  deriving DecidableEq

/-- Answers of the library to `startConnection`: the handle of `mysql_init` and the
pointer returned by `mysql_real_connect` (null on failure). -/
structure ConnectLib where
  init : Option Nat
  real_connect : Option Nat
  deriving DecidableEq

/-- Answers of the library to `queryDatabase`: the status of `mysql_query` and the
pointer returned by `mysql_store_result`. -/
structure QueryLib where
  query : Int
  store_result : Option MYSQL_RES
  deriving DecidableEq

/-! ## The connector -/

/-- The exception classes of the connector, and `std::out_of_range` of `map::at`. -/
inductive Exn where
  | ConnectFailureException
  | QueryFailureException
  | NoElementException
  | DatabaseNotExistsException
  | IndexOutOfBounceException
  | NullCommandPointerException
  | out_of_range
  deriving DecidableEq

/-- The member variables of `MySQLConnector`. -/
structure MySQLConnector where
  connect : Option Nat
  res : Option MYSQL_RES
  row_count : Nat
  field_count : Nat
  hostName : Option (List Char)
  userName : Option (List Char)
  password : Option (List Char)
  dbName : Option (List Char)
  port : Int
  dbResult : Option (StdMap (StdMap String))
  deriving DecidableEq

/-- How a member function ends: it returns, it throws, or its behaviour is undefined. -/
inductive Run (α : Type) where
  | ret (a : α) (s : MySQLConnector) (calls : List LibCall)
  | thrown (e : Exn) (s : MySQLConnector) (calls : List LibCall)
  | undefined
  deriving DecidableEq

/-- The object as the member function leaves it, when its behaviour is defined. -/
def Run.state? {α : Type} : Run α → Option MySQLConnector
  | .ret _ s _ => some s
  | .thrown _ s _ => some s
  | .undefined => none

namespace MySQLConnector

/-- The member function `cleanResultMemory`: an owned cache is deleted and both counts
are set to zero; without a cache nothing changes. -/
def cleanResultMemory (this : MySQLConnector) : MySQLConnector :=
  match this.dbResult with
  | some _ => { this with dbResult := none, row_count := 0, field_count := 0 }
  | none => this

/-- The member function `emptyMemory`: the four text buffers are released, then
`cleanResultMemory` runs. -/
def emptyMemory (this : MySQLConnector) : MySQLConnector :=
  cleanResultMemory { this with hostName := none, userName := none, password := none, dbName := none }

/-- The constructor: the four texts are copied into buffers the object owns. -/
def ctor (hostName userName password dbName : List Char) (port : Int) : MySQLConnector :=
  { connect := none
    res := none
    row_count := 0
    field_count := 0
    hostName := some (hostName.take (strlen hostName))
    userName := some (userName.take (strlen userName))
    password := some (password.take (strlen password))
    dbName := some (dbName.take (strlen dbName))
    port := port
    dbResult := none }

/-- The member function `startConnection`: the handle of `mysql_init` is stored; when
`mysql_real_connect` answers null, `emptyMemory` runs and `ConnectFailureException` is
thrown. -/
def startConnection (this : MySQLConnector) (lib : ConnectLib) : Run Unit :=
  let this1 := { this with connect := lib.init }
  match lib.real_connect with
  | none =>
    .thrown .ConnectFailureException (emptyMemory this1) [.mysql_init, .mysql_real_connect]
  | some _ => .ret () this1 [.mysql_init, .mysql_real_connect]

/-- The inner loop of `queryDatabase`, at column `j` with `n` columns to go: cell `j`
of the fetched row goes under key `j`, a null cell as the text `NULL`.  Reading a
cell of a null row, or past the end of the row, is undefined. -/
def rowLoop (row : Option MYSQL_ROW) : Nat → Nat → StdMap String → Option (StdMap String)
  | _, 0, rowMap => some rowMap
  | j, n + 1, rowMap =>
    match row with
    | none => none
    | some cells =>
      match cells.get? j with
      | none => none
      | some none => rowLoop row (j + 1) n (rowMap.insert (toInt32 j) "NULL")
      | some (some text) => rowLoop row (j + 1) n (rowMap.insert (toInt32 j) text)

/-- The outer loop of `queryDatabase`, at row `i` with `n` rows to go: the next row
is fetched, turned into a map by the inner loop, and inserted under key `i`. -/
def resultLoop (field_count : Nat) :
    Nat → Nat → MYSQL_RES → StdMap (StdMap String) → Option (MYSQL_RES × StdMap (StdMap String))
  | _, 0, res, dbResult => some (res, dbResult)
  | i, n + 1, res, dbResult =>
    match rowLoop (mysql_fetch_row res).1 0 field_count [] with
    | none => none
    | some rowMap =>
      resultLoop field_count (i + 1) n (mysql_fetch_row res).2 (dbResult.insert (toInt32 i) rowMap)

/-- The member function `queryDatabase`.  The counts are assigned from the library
before `cleanResultMemory` runs, and the loops then run over the counts as they are. -/
def queryDatabase (this : MySQLConnector) (command : Option (List Char)) (lib : QueryLib) :
    Run Unit :=
  match command with
  | none => .thrown .NullCommandPointerException this []
  | some command =>
    if strcmp command [] = 0 then .thrown .NullCommandPointerException this []
    else if lib.query ≠ 0 then .thrown .QueryFailureException this [.mysql_query]
    else if strncmp command SELECT_upper 6 = 0 ∨ strncmp command SELECT_lower 6 = 0 then
      match lib.store_result with
      | none => .undefined
      | some res =>
        let this1 := { this with res := some res, row_count := mysql_num_rows res,
                                 field_count := mysql_num_fields res }
        let this2 := cleanResultMemory this1
        match resultLoop this2.field_count 0 this2.row_count res [] with
        | none => .undefined
        | some (res', dbResult) =>
          .ret () { this2 with res := some res', dbResult := some dbResult }
            ([.mysql_query, .mysql_store_result, .mysql_num_rows, .mysql_num_fields]
              ++ List.replicate this2.row_count .mysql_fetch_row)
    else .ret () this [.mysql_query]

/-- The member function `getRowCount`. -/
def getRowCount (this : MySQLConnector) : Nat := this.row_count

/-- The member function `getFieldCount`. -/
def getFieldCount (this : MySQLConnector) : Nat := this.field_count

/-- The member function `changeDatabase`; `select_db` is the status of `mysql_select_db`. -/
def changeDatabase (this : MySQLConnector) (newDBName : Option (List Char)) (select_db : Int) :
    Run Unit :=
  match newDBName with
  | none => .ret () this []
  | some _ =>
    if select_db ≠ 0 then .thrown .DatabaseNotExistsException this [.mysql_select_db]
    else .ret () this [.mysql_select_db]

/-- The member function `getSingleRowResult`: the next row of the stored result; the
library dereferences the stored result, which must not be null. -/
def getSingleRowResult (this : MySQLConnector) : Run (Option MYSQL_ROW) :=
  match this.res with
  | none => .undefined
  | some res =>
    .ret (mysql_fetch_row res).1 { this with res := some (mysql_fetch_row res).2 } [.mysql_fetch_row]

/-- The member function `getSingleFieldResult`; `map::at` throws `std::out_of_range` for a
key that is not in the map. -/
def getSingleFieldResult (this : MySQLConnector) (indexRow indexColumn : Nat) : Run String :=
  if indexRow < 0 ∨ indexRow ≥ this.row_count ∨ indexColumn < 0 ∨ indexColumn ≥ this.field_count
  then .thrown .IndexOutOfBounceException this []
  else
    match this.dbResult with
    | none => .ret "NULL" this []
    | some dbResult =>
      match StdMap.find dbResult (toInt32 indexRow) with
      | none => .thrown .out_of_range this []
      | some rowMap =>
        match StdMap.find rowMap (toInt32 indexColumn) with
        | none => .thrown .out_of_range this []
        | some text => .ret text this []

end MySQLConnector

open MySQLConnector

/-! ## Specification-level definitions and example data -/

/-- The text the cache holds for a cell: the cell's text, and `NULL` for a null cell. -/
def cellText (cell : Option String) : String :=
  match cell with
  | none => "NULL"
  | some text => text

/-- The exception a member function throws, if it throws one. -/
def Run.exn? {α : Type} : Run α → Option Exn
  | .ret _ _ _ => none
  | .thrown e _ _ => some e
  | .undefined => none

/-- The object of `queryDatabase` after `res`, `row_count` and `field_count` have been
assigned from the library and `cleanResultMemory` has run. -/
def afterClean (s : MySQLConnector) (res : MYSQL_RES) : MySQLConnector :=
  cleanResultMemory { s with res := some res, row_count := mysql_num_rows res,
                             field_count := mysql_num_fields res }

/-- The connector of `example.cpp`, as constructed. -/
def exampleConnector : MySQLConnector :=
  ctor "hostname".toList "username".toList "sql password".toList "database to use".toList 3306

/-- The connector of `example.cpp` after a `startConnection` that succeeded. -/
def connected : MySQLConnector :=
  ((startConnection exampleConnector ⟨some 1, some 1⟩).state?).getD exampleConnector

/-- The command `SELECT id,name FROM users`. -/
def selectUsers : List Char := "SELECT id,name FROM users".toList

/-- The rows `(1, Alice)`, `(2, Bob)`. -/
def usersResult : MYSQL_RES := ⟨2, 2, [[some "1", some "Alice"], [some "2", some "Bob"]]⟩

/-- The connected connector after `selectUsers` succeeded with `usersResult`. -/
def cachedUsers : MySQLConnector :=
  ((queryDatabase connected (some selectUsers) ⟨0, some usersResult⟩).state?).getD connected

/-- The command `select name from items`. -/
def selectItems : List Char := "select name from items".toList

/-- The single row `(pen)`. -/
def itemsResult : MYSQL_RES := ⟨1, 1, [[some "pen"]]⟩

/-- The command `UPDATE t SET x=1`. -/
def updateT : List Char := "UPDATE t SET x=1".toList

/-- The command `Select * from t`, in mixed case. -/
def selectMixed : List Char := "Select * from t".toList

/-- A one-cell result whose cell is SQL NULL. -/
def nullCell : MYSQL_RES := ⟨1, 1, [[none]]⟩

/-- A one-cell result whose cell is the four-character text `NULL`. -/
def nullText : MYSQL_RES := ⟨1, 1, [[some "NULL"]]⟩

/-- The objects a program can hold: a constructed connector, and what any member
function leaves of a reachable one, whatever the library answers. -/
inductive Reachable : MySQLConnector → Prop where
  | constructed (hostName userName password dbName : List Char) (port : Int) :
    Reachable (ctor hostName userName password dbName port)
  | afterStartConnection (s s' : MySQLConnector) (lib : ConnectLib) :
    Reachable s → (startConnection s lib).state? = some s' → Reachable s'
  | afterQueryDatabase (s s' : MySQLConnector) (command : Option (List Char)) (lib : QueryLib) :
    Reachable s → (queryDatabase s command lib).state? = some s' → Reachable s'
  | afterChangeDatabase (s s' : MySQLConnector) (newDBName : Option (List Char))
    (select_db : Int) :
    Reachable s → (changeDatabase s newDBName select_db).state? = some s' → Reachable s'
  | afterGetSingleRowResult (s s' : MySQLConnector) :
    Reachable s → (getSingleRowResult s).state? = some s' → Reachable s'
  | afterGetSingleFieldResult (s s' : MySQLConnector) (indexRow indexColumn : Nat) :
    Reachable s → (getSingleFieldResult s indexRow indexColumn).state? = some s' → Reachable s'

/-- The cache, when there is one, has an entry for the key of every index pair within
the counts. -/
def CacheComplete (s : MySQLConnector) : Prop :=
  ∀ dbResult, s.dbResult = some dbResult → ∀ r, r < s.row_count →
    ∃ rowMap, StdMap.find dbResult (toInt32 r) = some rowMap ∧
      ∀ c, c < s.field_count → ∃ text, StdMap.find rowMap (toInt32 c) = some text

/-- One-cell rows: `n + 1` rows holding `first`, then one row holding `last`. -/
def firstThenLast (n : Nat) : List MYSQL_ROW :=
  [some "first"] :: (List.replicate n [some "first"] ++ [[some "last"]])

/-- A result of `2^32 + 1` rows of one field: row `2^32`, the last one, holds `last`, every
other row holds `first`. -/
def manyRows : MYSQL_RES := ⟨2 ^ 32 + 1, 1, firstThenLast (2 ^ 32 - 1)⟩

/-- The predicate of C8: without a cache both counts are zero; with a cache its row keys
are exactly `0 .. row_count - 1` and the column keys of every row are exactly
`0 .. field_count - 1`. -/
def CacheInvariant (s : MySQLConnector) : Prop :=
  (s.dbResult = none → s.row_count = 0 ∧ s.field_count = 0) ∧
  ∀ dbResult, s.dbResult = some dbResult →
    (∀ z, z ∈ StdMap.keys dbResult ↔ 0 ≤ z ∧ z < (s.row_count : Int)) ∧
    ∀ e ∈ dbResult, ∀ z, z ∈ StdMap.keys e.2 ↔ 0 ≤ z ∧ z < (s.field_count : Int)

/-- A result of `2^31 + 1` rows of one field, every cell holding `x`. -/
def wideRows : MYSQL_RES := ⟨2 ^ 31 + 1, 1, List.replicate (2 ^ 31 + 1) [some "x"]⟩

/-! ## C strings: what the comparisons decide -/

theorem char_sub_eq_zero_iff (a b : Char) : (a.toNat : Int) - (b.toNat : Int) = 0 ↔ a = b := by
  constructor
  · intro h
    have h1 : a.toNat = b.toNat := by omega
    apply Char.ext
    apply UInt32.ext
    exact h1
  · intro h
    subst h
    omega

theorem cstr_nil : cstr [] = [] := rfl

theorem cstr_cons (a : Char) (p : List Char) :
    cstr (a :: p) = if a = NUL then [] else a :: cstr p := by
  unfold cstr
  rw [List.takeWhile_cons]
  by_cases h : a = NUL
  · simp [h]
  · simp [h]

/-- The test `strcmp(command, "") == 0` holds exactly for the empty text. -/
theorem strcmp_nil_eq_zero_iff (p : List Char) : strcmp p [] = 0 ↔ cstr p = [] := by
  cases p with
  | nil => simp [strcmp, cstr_nil, NUL]
  | cons a p =>
    rw [cstr_cons]
    by_cases h : a = NUL
    · simp [strcmp, h]
    · have h2 : ¬ ((a.toNat : Int) - (NUL.toNat : Int) = 0) := by
        rw [char_sub_eq_zero_iff]; exact h
      simp [strcmp, h, h2]

/-- The test `strncmp(command, lit, n) == 0`, for a literal of `n` characters, holds
exactly when the first `n` characters of the text are the literal. -/
theorem strncmp_eq_zero_iff (n : Nat) : ∀ (p lit : List Char), lit.length = n →
    (∀ ch ∈ lit, ch ≠ NUL) → (strncmp p lit n = 0 ↔ (cstr p).take n = lit) := by
  induction n with
  | zero =>
    intro p lit hlen _
    have : lit = [] := List.length_eq_zero.mp hlen
    simp [strncmp, this]
  | succ n ih =>
    intro p lit hlen hnul
    cases lit with
    | nil => simp at hlen
    | cons b lit =>
      have hb : b ≠ NUL := hnul b (by simp)
      have hlit : ∀ ch ∈ lit, ch ≠ NUL := fun ch hch => hnul ch (by simp [hch])
      have hlen2 : lit.length = n := by simpa using hlen
      cases p with
      | nil =>
        have h2 : ¬ ((NUL.toNat : Int) - (b.toNat : Int) = 0) := by
          rw [char_sub_eq_zero_iff]; exact fun h => hb h.symm
        simp [strncmp, cstr_nil, Ne.symm hb, h2]
      | cons a p =>
        rw [cstr_cons]
        by_cases hab : a = b
        · subst hab
          simp [strncmp, hb, ih p lit hlen2 hlit]
        · have h2 : ¬ ((a.toNat : Int) - (b.toNat : Int) = 0) := by
            rw [char_sub_eq_zero_iff]; exact hab
          by_cases ha : a = NUL
          · subst ha
            simp [strncmp, hab, h2]
          · simp [strncmp, hab, h2, ha]

theorem strncmp_SELECT_upper (p : List Char) :
    strncmp p SELECT_upper 6 = 0 ↔ (cstr p).take 6 = SELECT_upper :=
  strncmp_eq_zero_iff 6 p SELECT_upper rfl (by decide)

theorem strncmp_SELECT_lower (p : List Char) :
    strncmp p SELECT_lower 6 = 0 ↔ (cstr p).take 6 = SELECT_lower :=
  strncmp_eq_zero_iff 6 p SELECT_lower rfl (by decide)

/-! ## The conversion to `int` -/

theorem toInt32_of_lt (n : Nat) (h : n < 2 ^ 31) : toInt32 n = (n : Int) := by
  unfold toInt32
  have h1 : n % 2 ^ 32 = n := Nat.mod_eq_of_lt (by omega)
  rw [h1, if_pos h]

theorem toInt32_inj (a b : Nat) (ha : a < 2 ^ 32) (hb : b < 2 ^ 32)
    (h : toInt32 a = toInt32 b) : a = b := by
  unfold toInt32 at h
  rw [Nat.mod_eq_of_lt ha, Nat.mod_eq_of_lt hb] at h
  split_ifs at h <;> omega

theorem toInt32_mod (n : Nat) : toInt32 (n % 2 ^ 32) = toInt32 n := by
  unfold toInt32
  rw [Nat.mod_mod]

theorem toInt32_neg (n : Nat) (h1 : 2 ^ 31 ≤ n) (h2 : n < 2 ^ 32) : toInt32 n < 0 := by
  unfold toInt32
  rw [Nat.mod_eq_of_lt h2, if_neg (by omega)]
  omega

/-! ## `std::map`: lookup after insertion -/

namespace StdMap

variable {V : Type}

theorem find_append (m m' : StdMap V) (k : Int) :
    find (m ++ m') k = match find m k with
      | some v => some v
      | none => find m' k := by
  induction m with
  | nil => simp [find]
  | cons e m ih =>
    obtain ⟨k', v⟩ := e
    by_cases h : k' = k
    · simp [find, h]
    · simp [find, h, ih]

theorem find_insert_of_some (m : StdMap V) (k z : Int) (v x : V) (h : find m z = some x) :
    find (insert m k v) z = some x := by
  unfold insert
  cases hk : find m k with
  | some y => simpa using h
  | none => simp [find_append, h]

theorem find_insert_self (m : StdMap V) (k : Int) (v : V) (h : find m k = none) :
    find (insert m k v) k = some v := by
  unfold insert
  simp [h, find_append, find]

theorem find_insert_ne (m : StdMap V) (k z : Int) (v : V) (h : k ≠ z) :
    find (insert m k v) z = find m z := by
  unfold insert
  cases hk : find m k with
  | some y => rfl
  | none =>
    simp only [find_append, find, if_neg h]
    cases find m z <;> rfl

theorem mem_keys_iff (m : StdMap V) (z : Int) : z ∈ keys m ↔ ∃ v, find m z = some v := by
  induction m with
  | nil => simp [keys, find]
  | cons e m ih =>
    obtain ⟨k', v⟩ := e
    have ih2 : z ∈ List.map Prod.fst m ↔ ∃ v, find m z = some v := ih
    by_cases h : k' = z
    · simp [keys, find, h]
    · have h2 : ¬ z = k' := fun e => h e.symm
      simp [keys, find, h, h2, ih2]

theorem find_none_iff (m : StdMap V) (z : Int) : find m z = none ↔ z ∉ keys m := by
  rw [mem_keys_iff]
  cases find m z <;> simp

theorem mem_keys_insert (m : StdMap V) (k z : Int) (v : V) :
    z ∈ keys (insert m k v) ↔ z ∈ keys m ∨ z = k := by
  unfold insert
  cases hk : find m k with
  | some y =>
    have : k ∈ keys m := (mem_keys_iff m k).mpr ⟨y, hk⟩
    constructor
    · intro h; exact Or.inl h
    · rintro (h | h)
      · exact h
      · subst h; exact this
  | none => simp [keys]

theorem mem_insert (m : StdMap V) (k : Int) (v : V) (e : Int × V) (h : e ∈ insert m k v) :
    e ∈ m ∨ e = (k, v) := by
  unfold insert at h
  cases hk : find m k with
  | some y => rw [hk] at h; exact Or.inl h
  | none => rw [hk] at h; simpa using h

theorem mem_of_find (m : StdMap V) (k : Int) (v : V) (h : find m k = some v) : (k, v) ∈ m := by
  induction m with
  | nil => simp [find] at h
  | cons e m ih =>
    obtain ⟨k', v'⟩ := e
    by_cases hk : k' = k
    · simp [find, hk] at h
      simp [hk, h]
    · simp [find, hk] at h
      exact List.mem_cons_of_mem _ (ih h)

end StdMap

/-! ## The loops of `queryDatabase` -/

theorem rowLoop_succ (cells : MYSQL_ROW) (j n : Nat) (rowMap : StdMap String) :
    rowLoop (some cells) j (n + 1) rowMap =
      match cells.get? j with
      | none => none
      | some cell => rowLoop (some cells) (j + 1) n (rowMap.insert (toInt32 j) (cellText cell)) := by
  simp only [rowLoop]
  cases cells.get? j with
  | none => rfl
  | some cell => cases cell <;> rfl

theorem rowLoop_succ_inv (row : Option MYSQL_ROW) (j n : Nat) (rowMap rowMap' : StdMap String)
    (h : rowLoop row j (n + 1) rowMap = some rowMap') :
    ∃ cells cell, row = some cells ∧ cells.get? j = some cell ∧
      rowLoop (some cells) (j + 1) n (rowMap.insert (toInt32 j) (cellText cell)) = some rowMap' := by
  cases row with
  | none => simp [rowLoop] at h
  | some cells =>
    rw [rowLoop_succ] at h
    cases hc : cells.get? j with
    | none => rw [hc] at h; simp at h
    | some cell => rw [hc] at h; exact ⟨cells, cell, rfl, hc, h⟩

/-- The inner loop is defined on a row that has a cell for every column it visits. -/
theorem rowLoop_defined (cells : MYSQL_ROW) (n : Nat) : ∀ (j : Nat) (rowMap : StdMap String),
    j + n ≤ cells.length → ∃ rowMap', rowLoop (some cells) j n rowMap = some rowMap' := by
  induction n with
  | zero => intro j rowMap _; exact ⟨rowMap, rfl⟩
  | succ n ih =>
    intro j rowMap h
    rw [rowLoop_succ]
    have hj : j < cells.length := by omega
    rw [List.get?_eq_get hj]
    exact ih (j + 1) _ (by omega)

/-- The keys after the inner loop: those before it and the columns it visited. -/
theorem rowLoop_keys (row : Option MYSQL_ROW) (n : Nat) :
    ∀ (j : Nat) (rowMap rowMap' : StdMap String), rowLoop row j n rowMap = some rowMap' →
      ∀ z, z ∈ StdMap.keys rowMap' ↔
        z ∈ StdMap.keys rowMap ∨ ∃ c, j ≤ c ∧ c < j + n ∧ z = toInt32 c := by
  induction n with
  | zero =>
    intro j rowMap rowMap' h z
    simp only [rowLoop, Option.some.injEq] at h
    subst h
    constructor
    · intro hz; exact Or.inl hz
    · rintro (hz | ⟨c, h1, h2, _⟩)
      · exact hz
      · omega
  | succ n ih =>
    intro j rowMap rowMap' h z
    obtain ⟨cells, cell, hrow, _, hrec⟩ := rowLoop_succ_inv row j n rowMap rowMap' h
    subst hrow
    rw [ih (j + 1) _ rowMap' hrec z, StdMap.mem_keys_insert]
    constructor
    · rintro ((hz | hz) | ⟨c, h1, h2, h3⟩)
      · exact Or.inl hz
      · exact Or.inr ⟨j, le_refl j, by omega, hz⟩
      · exact Or.inr ⟨c, by omega, by omega, h3⟩
    · rintro (hz | ⟨c, h1, h2, h3⟩)
      · exact Or.inl (Or.inl hz)
      · by_cases hc : c = j
        · subst hc; exact Or.inl (Or.inr h3)
        · exact Or.inr ⟨c, by omega, by omega, h3⟩

/-- An entry present before the inner loop is still there after it. -/
theorem rowLoop_find_kept (row : Option MYSQL_ROW) (n : Nat) :
    ∀ (j : Nat) (rowMap rowMap' : StdMap String), rowLoop row j n rowMap = some rowMap' →
      ∀ z text, StdMap.find rowMap z = some text → StdMap.find rowMap' z = some text := by
  induction n with
  | zero =>
    intro j rowMap rowMap' h z text hz
    simp only [rowLoop, Option.some.injEq] at h
    subst h
    exact hz
  | succ n ih =>
    intro j rowMap rowMap' h z text hz
    obtain ⟨cells, cell, hrow, _, hrec⟩ := rowLoop_succ_inv row j n rowMap rowMap' h
    subst hrow
    exact ih (j + 1) _ rowMap' hrec z text (StdMap.find_insert_of_some rowMap _ z _ text hz)

/-- The entry the inner loop leaves under the key of column `c`, when no entry and no
earlier column had that key: the text of cell `c`. -/
theorem rowLoop_find (row : Option MYSQL_ROW) (n : Nat) :
    ∀ (j : Nat) (rowMap rowMap' : StdMap String), rowLoop row j n rowMap = some rowMap' →
      ∀ c, j ≤ c → c < j + n → StdMap.find rowMap (toInt32 c) = none →
        (∀ c', j ≤ c' → c' < c → toInt32 c' ≠ toInt32 c) →
        ∃ cells cell, row = some cells ∧ cells.get? c = some cell ∧
          StdMap.find rowMap' (toInt32 c) = some (cellText cell) := by
  induction n with
  | zero => intro j rowMap rowMap' _ c h1 h2; omega
  | succ n ih =>
    intro j rowMap rowMap' h c h1 h2 hnone hfirst
    obtain ⟨cells, cell, hrow, hcell, hrec⟩ := rowLoop_succ_inv row j n rowMap rowMap' h
    subst hrow
    by_cases hc : c = j
    · subst hc
      refine ⟨cells, cell, rfl, hcell, ?_⟩
      exact rowLoop_find_kept (some cells) n (c + 1) _ rowMap' hrec _ _
        (StdMap.find_insert_self rowMap _ _ hnone)
    · have hne : toInt32 j ≠ toInt32 c := hfirst j (le_refl j) (by omega)
      exact ih (j + 1) _ rowMap' hrec c (by omega) (by omega)
        (by rw [StdMap.find_insert_ne rowMap _ _ _ hne]; exact hnone)
        (fun c' h3 h4 => hfirst c' (by omega) h4)

theorem resultLoop_succ_inv (field_count i n : Nat) (res res' : MYSQL_RES)
    (dbResult dbResult' : StdMap (StdMap String))
    (h : resultLoop field_count i (n + 1) res dbResult = some (res', dbResult')) :
    ∃ rowMap, rowLoop res.data.head? 0 field_count [] = some rowMap ∧
      resultLoop field_count (i + 1) n { res with data := res.data.tail }
        (dbResult.insert (toInt32 i) rowMap) = some (res', dbResult') := by
  simp only [resultLoop, mysql_fetch_row] at h
  cases hr : rowLoop res.data.head? 0 field_count [] with
  | none => rw [hr] at h; simp at h
  | some rowMap => rw [hr] at h; exact ⟨rowMap, rfl, h⟩

theorem get?_tail_eq {α : Type} (l : List α) (k : Nat) : l.tail.get? k = l.get? (k + 1) := by
  cases l <;> simp

theorem head?_eq_get?_zero {α : Type} (l : List α) : l.head? = l.get? 0 := by
  cases l <;> simp

/-- The outer loop is defined when the result has a row for every iteration and every
row has a cell for every field. -/
theorem resultLoop_defined (field_count n : Nat) :
    ∀ (i : Nat) (res : MYSQL_RES) (dbResult : StdMap (StdMap String)),
      n ≤ res.data.length → (∀ row ∈ res.data, field_count ≤ row.length) →
      ∃ r, resultLoop field_count i n res dbResult = some r := by
  induction n with
  | zero => intro i res dbResult _ _; exact ⟨(res, dbResult), rfl⟩
  | succ n ih =>
    intro i res dbResult hlen hrows
    obtain ⟨row_count, fc, data⟩ := res
    cases data with
    | nil => simp at hlen
    | cons row rest =>
      obtain ⟨rowMap, hrowMap⟩ := rowLoop_defined row field_count 0 []
        (by have := hrows row (by simp); omega)
      have hstep : resultLoop field_count i (n + 1) ⟨row_count, fc, row :: rest⟩ dbResult =
          resultLoop field_count (i + 1) n ⟨row_count, fc, rest⟩
            (dbResult.insert (toInt32 i) rowMap) := by
        simp only [resultLoop, mysql_fetch_row, List.head?_cons, List.tail_cons, hrowMap]
      rw [hstep]
      exact ih (i + 1) ⟨row_count, fc, rest⟩ _ (by simpa using hlen)
        (fun r hr => hrows r (by simp [hr]))

/-- The row keys after the outer loop: those before it and the rows it visited. -/
theorem resultLoop_keys (field_count n : Nat) :
    ∀ (i : Nat) (res res' : MYSQL_RES) (dbResult dbResult' : StdMap (StdMap String)),
      resultLoop field_count i n res dbResult = some (res', dbResult') →
      ∀ z, z ∈ StdMap.keys dbResult' ↔
        z ∈ StdMap.keys dbResult ∨ ∃ k, i ≤ k ∧ k < i + n ∧ z = toInt32 k := by
  induction n with
  | zero =>
    intro i res res' dbResult dbResult' h z
    simp only [resultLoop, Option.some.injEq, Prod.mk.injEq] at h
    obtain ⟨_, h⟩ := h
    subst h
    constructor
    · intro hz; exact Or.inl hz
    · rintro (hz | ⟨k, h1, h2, _⟩)
      · exact hz
      · omega
  | succ n ih =>
    intro i res res' dbResult dbResult' h z
    obtain ⟨rowMap, _, hrec⟩ := resultLoop_succ_inv field_count i n res res' dbResult dbResult' h
    rw [ih (i + 1) _ res' _ dbResult' hrec z, StdMap.mem_keys_insert]
    constructor
    · rintro ((hz | hz) | ⟨k, h1, h2, h3⟩)
      · exact Or.inl hz
      · exact Or.inr ⟨i, le_refl i, by omega, hz⟩
      · exact Or.inr ⟨k, by omega, by omega, h3⟩
    · rintro (hz | ⟨k, h1, h2, h3⟩)
      · exact Or.inl (Or.inl hz)
      · by_cases hk : k = i
        · subst hk; exact Or.inl (Or.inr h3)
        · exact Or.inr ⟨k, by omega, by omega, h3⟩

/-- Every entry after the outer loop was there before it or is a row map built by the
inner loop, from no entries, over all the fields. -/
theorem resultLoop_values (field_count n : Nat) :
    ∀ (i : Nat) (res res' : MYSQL_RES) (dbResult dbResult' : StdMap (StdMap String)),
      resultLoop field_count i n res dbResult = some (res', dbResult') →
      ∀ e ∈ dbResult', e ∈ dbResult ∨ ∃ row, rowLoop row 0 field_count [] = some e.2 := by
  induction n with
  | zero =>
    intro i res res' dbResult dbResult' h e he
    simp only [resultLoop, Option.some.injEq, Prod.mk.injEq] at h
    obtain ⟨_, h⟩ := h
    subst h
    exact Or.inl he
  | succ n ih =>
    intro i res res' dbResult dbResult' h e he
    obtain ⟨rowMap, hrow, hrec⟩ := resultLoop_succ_inv field_count i n res res' dbResult dbResult' h
    rcases ih (i + 1) _ res' _ dbResult' hrec e he with h1 | h1
    · rcases StdMap.mem_insert dbResult _ _ e h1 with h2 | h2
      · exact Or.inl h2
      · subst h2; exact Or.inr ⟨_, hrow⟩
    · exact Or.inr h1

/-- An entry present before the outer loop is still there after it. -/
theorem resultLoop_find_kept (field_count n : Nat) :
    ∀ (i : Nat) (res res' : MYSQL_RES) (dbResult dbResult' : StdMap (StdMap String)),
      resultLoop field_count i n res dbResult = some (res', dbResult') →
      ∀ z rowMap, StdMap.find dbResult z = some rowMap → StdMap.find dbResult' z = some rowMap := by
  induction n with
  | zero =>
    intro i res res' dbResult dbResult' h z rowMap hz
    simp only [resultLoop, Option.some.injEq, Prod.mk.injEq] at h
    obtain ⟨_, h⟩ := h
    subst h
    exact hz
  | succ n ih =>
    intro i res res' dbResult dbResult' h z rowMap hz
    obtain ⟨rowMap1, _, hrec⟩ := resultLoop_succ_inv field_count i n res res' dbResult dbResult' h
    exact ih (i + 1) _ res' _ dbResult' hrec z rowMap
      (StdMap.find_insert_of_some dbResult _ z _ rowMap hz)

/-- The entry the outer loop leaves under the key of its `k`-th row, when no entry and
no earlier row had that key: the row map the inner loop builds from that row. -/
theorem resultLoop_find (field_count n : Nat) :
    ∀ (i : Nat) (res res' : MYSQL_RES) (dbResult dbResult' : StdMap (StdMap String)),
      resultLoop field_count i n res dbResult = some (res', dbResult') →
      ∀ k, k < n → StdMap.find dbResult (toInt32 (i + k)) = none →
        (∀ k', k' < k → toInt32 (i + k') ≠ toInt32 (i + k)) →
        ∃ rowMap, rowLoop (res.data.get? k) 0 field_count [] = some rowMap ∧
          StdMap.find dbResult' (toInt32 (i + k)) = some rowMap := by
  induction n with
  | zero => intro i res res' dbResult dbResult' _ k hk; omega
  | succ n ih =>
    intro i res res' dbResult dbResult' h k hk hnone hfirst
    obtain ⟨rowMap, hrow, hrec⟩ := resultLoop_succ_inv field_count i n res res' dbResult dbResult' h
    cases k with
    | zero =>
      refine ⟨rowMap, ?_, ?_⟩
      · rw [← head?_eq_get?_zero]; exact hrow
      · exact resultLoop_find_kept field_count n (i + 1) _ res' _ dbResult' hrec _ _
          (StdMap.find_insert_self dbResult _ _ hnone)
    | succ k =>
      have hne : toInt32 i ≠ toInt32 (i + (k + 1)) := by
        have := hfirst 0 (by omega)
        simpa using this
      have hidx : i + 1 + k = i + (k + 1) := by omega
      obtain ⟨rm, h1, h2⟩ := ih (i + 1) _ res' _ dbResult' hrec k (by omega)
        (by rw [hidx, StdMap.find_insert_ne dbResult _ _ _ hne]; exact hnone)
        (fun k' hk' => by
          have := hfirst (k' + 1) (by omega)
          rw [hidx]
          have h3 : i + 1 + k' = i + (k' + 1) := by omega
          rw [h3]
          exact this)
      refine ⟨rm, ?_, ?_⟩
      · rw [← get?_tail_eq]; exact h1
      · rw [← hidx]; exact h2

/-! ## What `queryDatabase` does on each of its paths -/

/-- A command whose text starts with one of the two literals is not the empty text. -/
theorem cstr_ne_nil_of_select (command : List Char)
    (hsel : (cstr command).take 6 = SELECT_upper ∨ (cstr command).take 6 = SELECT_lower) :
    cstr command ≠ [] := by
  intro h
  rw [h] at hsel
  rcases hsel with h1 | h1 <;> simp [SELECT_upper, SELECT_lower] at h1

/-- The path of a command that is not empty, is accepted by the library and starts
with `SELECT` or `select`. -/
theorem queryDatabase_select (s : MySQLConnector) (command : List Char) (lib : QueryLib)
    (res : MYSQL_RES)
    (hsel : (cstr command).take 6 = SELECT_upper ∨ (cstr command).take 6 = SELECT_lower)
    (hok : lib.query = 0) (hres : lib.store_result = some res) :
    queryDatabase s (some command) lib =
      match resultLoop (afterClean s res).field_count 0 (afterClean s res).row_count res [] with
      | none => .undefined
      | some (res', dbResult) =>
        .ret () { afterClean s res with res := some res', dbResult := some dbResult }
          ([.mysql_query, .mysql_store_result, .mysql_num_rows, .mysql_num_fields]
            ++ List.replicate (afterClean s res).row_count .mysql_fetch_row) := by
  have hne : ¬ strcmp command [] = 0 := by
    rw [strcmp_nil_eq_zero_iff]; exact cstr_ne_nil_of_select command hsel
  have hcond : strncmp command SELECT_upper 6 = 0 ∨ strncmp command SELECT_lower 6 = 0 := by
    rw [strncmp_SELECT_upper, strncmp_SELECT_lower]; exact hsel
  simp only [queryDatabase, if_neg hne, hok, ne_eq, not_true_eq_false, if_false, if_pos hcond,
    hres, afterClean]

/-- With a cache owned, `cleanResultMemory` drops it and zeroes both counts. -/
theorem afterClean_of_cache (s : MySQLConnector) (res : MYSQL_RES) (old : StdMap (StdMap String))
    (hcache : s.dbResult = some old) :
    (afterClean s res).row_count = 0 ∧ (afterClean s res).field_count = 0 ∧
      (afterClean s res).dbResult = none := by
  simp [afterClean, cleanResultMemory, hcache]

/-- With no cache owned, `cleanResultMemory` does nothing. -/
theorem afterClean_of_no_cache (s : MySQLConnector) (res : MYSQL_RES)
    (hnone : s.dbResult = none) :
    (afterClean s res).row_count = mysql_num_rows res ∧
      (afterClean s res).field_count = mysql_num_fields res ∧
      (afterClean s res).dbResult = none := by
  simp [afterClean, cleanResultMemory, hnone]

/-- The path of a command that is not empty, is accepted by the library and starts
with neither literal. -/
theorem queryDatabase_other (s : MySQLConnector) (command : List Char) (lib : QueryLib)
    (hne : cstr command ≠ [])
    (hU : (cstr command).take 6 ≠ SELECT_upper) (hL : (cstr command).take 6 ≠ SELECT_lower)
    (hok : lib.query = 0) :
    queryDatabase s (some command) lib = .ret () s [.mysql_query] := by
  have hne2 : ¬ strcmp command [] = 0 := by
    rw [strcmp_nil_eq_zero_iff]; exact hne
  have hcond : ¬ (strncmp command SELECT_upper 6 = 0 ∨ strncmp command SELECT_lower 6 = 0) := by
    rw [strncmp_SELECT_upper, strncmp_SELECT_lower]
    rintro (h | h)
    · exact hU h
    · exact hL h
  simp only [queryDatabase, if_neg hne2, hok, ne_eq, not_true_eq_false, if_false, if_neg hcond]

/-- The path of a command that is not empty and that the library rejects. -/
theorem queryDatabase_rejected (s : MySQLConnector) (command : List Char) (lib : QueryLib)
    (hne : cstr command ≠ []) (hfail : lib.query ≠ 0) :
    queryDatabase s (some command) lib = .thrown .QueryFailureException s [.mysql_query] := by
  have hne2 : ¬ strcmp command [] = 0 := by
    rw [strcmp_nil_eq_zero_iff]; exact hne
  simp only [queryDatabase, if_neg hne2, if_pos hfail]

/-- The path of an empty command. -/
theorem queryDatabase_empty (s : MySQLConnector) (command : List Char) (lib : QueryLib)
    (he : cstr command = []) :
    queryDatabase s (some command) lib = .thrown .NullCommandPointerException s [] := by
  have h : strcmp command [] = 0 := by
    rw [strcmp_nil_eq_zero_iff]; exact he
  simp only [queryDatabase, if_pos h]

/-- A command that is not empty never ends in `NullCommandPointerException`. -/
theorem queryDatabase_exn_of_ne (s : MySQLConnector) (command : List Char) (lib : QueryLib)
    (hne : cstr command ≠ []) :
    (queryDatabase s (some command) lib).exn? ≠ some .NullCommandPointerException := by
  have hne2 : ¬ strcmp command [] = 0 := by
    rw [strcmp_nil_eq_zero_iff]; exact hne
  simp only [queryDatabase, if_neg hne2]
  split_ifs
  · simp [Run.exn?]
  · cases lib.store_result with
    | none => simp [Run.exn?]
    | some res =>
      simp only
      split <;> simp [Run.exn?]
  · simp [Run.exn?]

/-! ## Claims on the paths of `queryDatabase` and on `changeDatabase` -/

/-- C4: a non-null, non-empty command whose first six characters are neither `SELECT`
nor `select`, and which the library accepts, returns normally and leaves the object as it
was: `getRowCount`, `getFieldCount` and `getSingleFieldResult` at every index pair give
what they gave before the call. -/
theorem C4_other_command_keeps_cache (s : MySQLConnector) (command : List Char) (lib : QueryLib)
    (hne : cstr command ≠ [])
    (hU : (cstr command).take 6 ≠ SELECT_upper) (hL : (cstr command).take 6 ≠ SELECT_lower)
    (hok : lib.query = 0) :
    ∃ s' calls, queryDatabase s (some command) lib = .ret () s' calls ∧
      getRowCount s' = getRowCount s ∧ getFieldCount s' = getFieldCount s ∧
      ∀ r c, getSingleFieldResult s' r c = getSingleFieldResult s r c :=
  ⟨s, [.mysql_query], queryDatabase_other s command lib hne hU hL hok, rfl, rfl, fun _ _ => rfl⟩

/-- The frame property of C4 at `UPDATE t SET x=1` and at the mixed-case
`Select * from t`, after the `users` query. -/
theorem C4_other_command_keeps_cache_witness :
    (∃ s' calls, queryDatabase cachedUsers (some updateT) ⟨0, none⟩ = .ret () s' calls ∧
      getRowCount s' = getRowCount cachedUsers ∧ getFieldCount s' = getFieldCount cachedUsers ∧
      ∀ r c, getSingleFieldResult s' r c = getSingleFieldResult cachedUsers r c) ∧
    (∃ s' calls, queryDatabase cachedUsers (some selectMixed) ⟨0, none⟩ = .ret () s' calls ∧
      getRowCount s' = getRowCount cachedUsers ∧ getFieldCount s' = getFieldCount cachedUsers ∧
      ∀ r c, getSingleFieldResult s' r c = getSingleFieldResult cachedUsers r c) :=
  ⟨C4_other_command_keeps_cache cachedUsers updateT ⟨0, none⟩
      (by decide) (by decide) (by decide) rfl,
    C4_other_command_keeps_cache cachedUsers selectMixed ⟨0, none⟩
      (by decide) (by decide) (by decide) rfl⟩

/-- C5: for a non-null, non-empty command, a non-zero status of the library's query call
makes `queryDatabase` throw `QueryFailureException` and leaves the object, hence the row
count, the field count and the cached result, as it was. -/
theorem C5_query_failure_keeps_cache (s : MySQLConnector) (command : List Char) (lib : QueryLib)
    (hne : cstr command ≠ []) (hfail : lib.query ≠ 0) :
    queryDatabase s (some command) lib = .thrown .QueryFailureException s [.mysql_query] :=
  queryDatabase_rejected s command lib hne hfail

/-- The failure path of C5 at the `users` query, rejected with status 1. -/
theorem C5_query_failure_keeps_cache_witness :
    queryDatabase cachedUsers (some selectUsers) ⟨1, none⟩ =
      .thrown .QueryFailureException cachedUsers [.mysql_query] :=
  C5_query_failure_keeps_cache cachedUsers selectUsers ⟨1, none⟩ (by decide) (by decide)

/-- C6: a null command and an empty command make `queryDatabase` throw
`NullCommandPointerException` with no library call made and the object as it was; a
command that is neither never ends in that exception. -/
theorem C6_null_command (s : MySQLConnector) (lib : QueryLib) :
    queryDatabase s none lib = .thrown .NullCommandPointerException s [] ∧
    (∀ command, cstr command = [] →
      queryDatabase s (some command) lib = .thrown .NullCommandPointerException s []) ∧
    (∀ command, cstr command ≠ [] →
      (queryDatabase s (some command) lib).exn? ≠ some .NullCommandPointerException) :=
  ⟨rfl, fun command he => queryDatabase_empty s command lib he,
    fun command hne => queryDatabase_exn_of_ne s command lib hne⟩

/-- C6 at the null pointer, the empty string and `UPDATE t SET x=1`. -/
theorem C6_null_command_witness :
    queryDatabase cachedUsers none ⟨0, none⟩ =
      .thrown .NullCommandPointerException cachedUsers [] ∧
    queryDatabase cachedUsers (some []) ⟨0, none⟩ =
      .thrown .NullCommandPointerException cachedUsers [] ∧
    (queryDatabase cachedUsers (some updateT) ⟨0, none⟩).exn? ≠
      some .NullCommandPointerException :=
  ⟨(C6_null_command cachedUsers ⟨0, none⟩).1,
    (C6_null_command cachedUsers ⟨0, none⟩).2.1 [] rfl,
    (C6_null_command cachedUsers ⟨0, none⟩).2.2 updateT (by decide)⟩

/-- C7: `changeDatabase` of a null name returns with no library call; of a non-null name
it throws `DatabaseNotExistsException` exactly when `mysql_select_db` reports a non-zero
status and returns otherwise; the object is left as it was in every case. -/
theorem C7_changeDatabase (s : MySQLConnector) (select_db : Int) :
    changeDatabase s none select_db = .ret () s [] ∧
    ∀ newDBName : List Char,
      (select_db ≠ 0 → changeDatabase s (some newDBName) select_db =
        .thrown .DatabaseNotExistsException s [.mysql_select_db]) ∧
      (select_db = 0 → changeDatabase s (some newDBName) select_db =
        .ret () s [.mysql_select_db]) ∧
      ((changeDatabase s (some newDBName) select_db).exn? = some .DatabaseNotExistsException ↔
        select_db ≠ 0) := by
  refine ⟨rfl, fun newDBName => ⟨?_, ?_, ?_⟩⟩
  · intro h; simp only [changeDatabase, if_pos h]
  · intro h; simp [changeDatabase, h]
  · by_cases h : select_db = 0
    · simp [changeDatabase, h, Run.exn?]
    · simp [changeDatabase, h, Run.exn?]

/-- C7 at the null name and at a name the library rejects and accepts. -/
theorem C7_changeDatabase_witness :
    changeDatabase cachedUsers none 1 = .ret () cachedUsers [] ∧
    changeDatabase cachedUsers (some "nonexistent_db".toList) 1 =
      .thrown .DatabaseNotExistsException cachedUsers [.mysql_select_db] ∧
    changeDatabase cachedUsers (some "shop".toList) 0 = .ret () cachedUsers [.mysql_select_db] :=
  ⟨(C7_changeDatabase cachedUsers 1).1,
    ((C7_changeDatabase cachedUsers 1).2 "nonexistent_db".toList).1 (by decide),
    ((C7_changeDatabase cachedUsers 0).2 "shop".toList).2.1 rfl⟩

/-- C9: on an object that already owns a cache, a `SELECT`-style query that the library
accepts and answers with any stored result returns normally with `getRowCount` zero,
`getFieldCount` zero and an empty cache, so that `getSingleFieldResult` throws
`IndexOutOfBounceException` at every index pair: the counts taken from the library are
reset by `cleanResultMemory` before the loops run. -/
theorem C9_select_over_cache_is_empty (s : MySQLConnector) (old : StdMap (StdMap String))
    (hcache : s.dbResult = some old) (command : List Char) (lib : QueryLib) (res : MYSQL_RES)
    (hsel : (cstr command).take 6 = SELECT_upper ∨ (cstr command).take 6 = SELECT_lower)
    (hok : lib.query = 0) (hres : lib.store_result = some res) :
    ∃ s' calls, queryDatabase s (some command) lib = .ret () s' calls ∧
      getRowCount s' = 0 ∧ getFieldCount s' = 0 ∧ s'.dbResult = some [] ∧
      ∀ r c, getSingleFieldResult s' r c = .thrown .IndexOutOfBounceException s' [] := by
  obtain ⟨hR, hF, _⟩ := afterClean_of_cache s res old hcache
  rw [queryDatabase_select s command lib res hsel hok hres, hR, hF]
  refine ⟨_, _, rfl, hR, hF, rfl, ?_⟩
  intro r c
  simp [getSingleFieldResult, hR, hF]

/-- C9 at the `items` query issued after the `users` query. -/
theorem C9_select_over_cache_is_empty_witness :
    ∃ s' calls, queryDatabase cachedUsers (some selectItems) ⟨0, some itemsResult⟩ =
        .ret () s' calls ∧
      getRowCount s' = 0 ∧ getFieldCount s' = 0 ∧ s'.dbResult = some [] ∧
      ∀ r c, getSingleFieldResult s' r c = .thrown .IndexOutOfBounceException s' [] :=
  C9_select_over_cache_is_empty cachedUsers
    [(0, [(0, "1"), (1, "Alice")]), (1, [(0, "2"), (1, "Bob")])] (by decide)
    selectItems ⟨0, some itemsResult⟩ itemsResult (by decide) rfl rfl

/-- C10: the results `nullCell` (SQL NULL in its one cell) and `nullText` (the text
`NULL` in that cell) differ and have the same shape, and the same successful query on
the same fresh connector leaves the same row count, field count and
`getSingleFieldResult` at every index pair for both. -/
theorem C10_null_and_text_NULL_coincide :
    nullCell ≠ nullText ∧
    mysql_num_rows nullCell = mysql_num_rows nullText ∧
    mysql_num_fields nullCell = mysql_num_fields nullText ∧
    ∃ s1 s2 calls1 calls2,
      queryDatabase connected (some selectItems) ⟨0, some nullCell⟩ = .ret () s1 calls1 ∧
      queryDatabase connected (some selectItems) ⟨0, some nullText⟩ = .ret () s2 calls2 ∧
      getRowCount s1 = getRowCount s2 ∧ getFieldCount s1 = getFieldCount s2 ∧
      getSingleFieldResult s1 0 0 = .ret "NULL" s1 [] ∧
      ∀ r c, (getSingleFieldResult s1 r c).exn? = (getSingleFieldResult s2 r c).exn? ∧
        ∀ text s calls, getSingleFieldResult s1 r c = .ret text s calls →
          ∃ t calls', getSingleFieldResult s2 r c = .ret text t calls' := by
  refine ⟨by decide, rfl, rfl, ?_⟩
  have h1 : ∃ s1 calls1,
      queryDatabase connected (some selectItems) ⟨0, some nullCell⟩ = .ret () s1 calls1 ∧
      queryDatabase connected (some selectItems) ⟨0, some nullText⟩ = .ret () s1 calls1 ∧
      getSingleFieldResult s1 0 0 = .ret "NULL" s1 [] := ⟨_, _, rfl, by decide, by decide⟩
  obtain ⟨s1, calls1, ha, hb, hc⟩ := h1
  exact ⟨s1, s1, calls1, calls1, ha, hb, rfl, rfl, hc, fun r c => ⟨rfl, fun text s calls h =>
    ⟨s, calls, h⟩⟩⟩

/-- C1, at the state its parenthesis names: the `users` query has succeeded and filled
the cache; then the `items` query succeeds, the library reporting one row, one field and
the cell `pen`.  Afterwards `getRowCount` and `getFieldCount` are 0, not 1, and
`getSingleFieldResult(0,0)` throws `IndexOutOfBounceException` instead of returning `pen`. -/
theorem C1_second_select_loses_result :
    queryDatabase connected (some selectUsers) ⟨0, some usersResult⟩ =
      .ret () cachedUsers [.mysql_query, .mysql_store_result, .mysql_num_rows, .mysql_num_fields,
        .mysql_fetch_row, .mysql_fetch_row] ∧
    getRowCount cachedUsers = 2 ∧ getSingleFieldResult cachedUsers 0 1 = .ret "Alice" cachedUsers [] ∧
    mysql_num_rows itemsResult = 1 ∧ mysql_num_fields itemsResult = 1 ∧
    itemsResult.cell 0 0 = some (some "pen") ∧
    ∃ s' calls, queryDatabase cachedUsers (some selectItems) ⟨0, some itemsResult⟩ =
        .ret () s' calls ∧
      getRowCount s' = 0 ∧ getFieldCount s' = 0 ∧
      getSingleFieldResult s' 0 0 = .thrown .IndexOutOfBounceException s' [] := by
  refine ⟨by decide, by decide, by decide, by decide, by decide, by decide, _, _, rfl, ?_, ?_, ?_⟩
  · decide
  · decide
  · decide

/-! ## Reachable objects and the completeness of the cache -/

/-- The path of a `SELECT`-style command for which `mysql_store_result` answers null. -/
theorem queryDatabase_select_null (s : MySQLConnector) (command : List Char) (lib : QueryLib)
    (hsel : (cstr command).take 6 = SELECT_upper ∨ (cstr command).take 6 = SELECT_lower)
    (hok : lib.query = 0) (hres : lib.store_result = none) :
    queryDatabase s (some command) lib = .undefined := by
  have hne : ¬ strcmp command [] = 0 := by
    rw [strcmp_nil_eq_zero_iff]; exact cstr_ne_nil_of_select command hsel
  have hcond : strncmp command SELECT_upper 6 = 0 ∨ strncmp command SELECT_lower 6 = 0 := by
    rw [strncmp_SELECT_upper, strncmp_SELECT_lower]; exact hsel
  simp only [queryDatabase, if_neg hne, hok, ne_eq, not_true_eq_false, if_false, if_pos hcond,
    hres]

/-- What the loops leave, started on an empty map at row 0, is complete for the counts
they ran over. -/
theorem resultLoop_complete (field_count row_count : Nat) (res res' : MYSQL_RES)
    (dbResult : StdMap (StdMap String))
    (h : resultLoop field_count 0 row_count res [] = some (res', dbResult)) :
    ∀ r, r < row_count → ∃ rowMap, StdMap.find dbResult (toInt32 r) = some rowMap ∧
      ∀ c, c < field_count → ∃ text, StdMap.find rowMap (toInt32 c) = some text := by
  intro r hr
  have hkey : toInt32 r ∈ StdMap.keys dbResult :=
    (resultLoop_keys field_count row_count 0 res res' [] dbResult h (toInt32 r)).mpr
      (Or.inr ⟨r, Nat.zero_le r, by omega, rfl⟩)
  obtain ⟨rowMap, hfind⟩ := (StdMap.mem_keys_iff dbResult (toInt32 r)).mp hkey
  refine ⟨rowMap, hfind, fun c hc => ?_⟩
  have hmem := StdMap.mem_of_find dbResult (toInt32 r) rowMap hfind
  rcases resultLoop_values field_count row_count 0 res res' [] dbResult h _ hmem with h1 | h1
  · simp at h1
  · obtain ⟨row, hrow⟩ := h1
    exact (StdMap.mem_keys_iff rowMap (toInt32 c)).mp
      ((rowLoop_keys row field_count 0 [] rowMap hrow (toInt32 c)).mpr
        (Or.inr ⟨c, Nat.zero_le c, by omega, rfl⟩))

/-- The five ways `queryDatabase` can end. -/
theorem queryDatabase_cases (s : MySQLConnector) (command : Option (List Char)) (lib : QueryLib) :
    queryDatabase s command lib = .thrown .NullCommandPointerException s [] ∨
    queryDatabase s command lib = .thrown .QueryFailureException s [.mysql_query] ∨
    queryDatabase s command lib = .ret () s [.mysql_query] ∨
    (queryDatabase s command lib = .undefined ∧
      (lib.store_result = none ∨ ∃ res, lib.store_result = some res ∧
        resultLoop (afterClean s res).field_count 0 (afterClean s res).row_count res [] = none)) ∨
    ∃ res res' dbResult, lib.store_result = some res ∧
      resultLoop (afterClean s res).field_count 0 (afterClean s res).row_count res [] =
        some (res', dbResult) ∧
      queryDatabase s command lib =
        .ret () { afterClean s res with res := some res', dbResult := some dbResult }
          ([.mysql_query, .mysql_store_result, .mysql_num_rows, .mysql_num_fields]
            ++ List.replicate (afterClean s res).row_count .mysql_fetch_row) := by
  cases command with
  | none => exact Or.inl rfl
  | some command =>
    by_cases he : cstr command = []
    · exact Or.inl (queryDatabase_empty s command lib he)
    · by_cases hok : lib.query = 0
      · by_cases hsel : (cstr command).take 6 = SELECT_upper ∨ (cstr command).take 6 = SELECT_lower
        · cases hres : lib.store_result with
          | none =>
            exact Or.inr (Or.inr (Or.inr (Or.inl
              ⟨queryDatabase_select_null s command lib hsel hok hres, Or.inl rfl⟩)))
          | some res =>
            have hq := queryDatabase_select s command lib res hsel hok hres
            cases hloop : resultLoop (afterClean s res).field_count 0
                (afterClean s res).row_count res [] with
            | none =>
              rw [hloop] at hq
              exact Or.inr (Or.inr (Or.inr (Or.inl ⟨hq, Or.inr ⟨res, rfl, hloop⟩⟩)))
            | some p =>
              obtain ⟨res', dbResult⟩ := p
              rw [hloop] at hq
              exact Or.inr (Or.inr (Or.inr (Or.inr ⟨res, res', dbResult, rfl, hloop, hq⟩)))
        · have hU : (cstr command).take 6 ≠ SELECT_upper := fun h => hsel (Or.inl h)
          have hL : (cstr command).take 6 ≠ SELECT_lower := fun h => hsel (Or.inr h)
          exact Or.inr (Or.inr (Or.inl (queryDatabase_other s command lib he hU hL hok)))
      · exact Or.inr (Or.inl (queryDatabase_rejected s command lib he hok))

theorem cacheComplete_queryDatabase (s s' : MySQLConnector) (command : Option (List Char))
    (lib : QueryLib) (hs : CacheComplete s)
    (h : (queryDatabase s command lib).state? = some s') : CacheComplete s' := by
  rcases queryDatabase_cases s command lib with
    hq | hq | hq | ⟨hq, _⟩ | ⟨res, res', m, _, hloop, hq⟩
  · rw [hq] at h; simp only [Run.state?, Option.some.injEq] at h; subst h; exact hs
  · rw [hq] at h; simp only [Run.state?, Option.some.injEq] at h; subst h; exact hs
  · rw [hq] at h; simp only [Run.state?, Option.some.injEq] at h; subst h; exact hs
  · rw [hq] at h; simp [Run.state?] at h
  · rw [hq] at h
    simp only [Run.state?, Option.some.injEq] at h
    subst h
    intro dbResult hdb r hr
    simp only [Option.some.injEq] at hdb
    subst hdb
    exact resultLoop_complete _ _ res res' m hloop r hr

theorem cacheComplete_of_reachable (s : MySQLConnector) (h : Reachable s) : CacheComplete s := by
  induction h with
  | constructed hostName userName password dbName port =>
    intro dbResult hdb
    simp [ctor] at hdb
  | afterStartConnection s s' lib _ hstep ih =>
    cases hrc : lib.real_connect with
    | none =>
      simp only [startConnection, hrc, Run.state?, Option.some.injEq] at hstep
      subst hstep
      intro dbResult hdb
      cases hold : s.dbResult with
      | none => simp [emptyMemory, cleanResultMemory, hold] at hdb
      | some old => simp [emptyMemory, cleanResultMemory, hold] at hdb
    | some handle =>
      simp only [startConnection, hrc, Run.state?, Option.some.injEq] at hstep
      subst hstep
      exact ih
  | afterQueryDatabase s s' command lib _ hstep ih =>
    exact cacheComplete_queryDatabase s s' command lib ih hstep
  | afterChangeDatabase s s' newDBName select_db _ hstep ih =>
    cases newDBName with
    | none =>
      simp only [changeDatabase, Run.state?, Option.some.injEq] at hstep
      subst hstep; exact ih
    | some name =>
      by_cases hz : select_db = 0
      · simp [changeDatabase, hz, Run.state?] at hstep
        subst hstep; exact ih
      · simp [changeDatabase, hz, Run.state?] at hstep
        subst hstep; exact ih
  | afterGetSingleRowResult s s' _ hstep ih =>
    cases hres : s.res with
    | none => simp [getSingleRowResult, hres, Run.state?] at hstep
    | some res =>
      simp only [getSingleRowResult, hres, Run.state?, Option.some.injEq] at hstep
      subst hstep
      exact ih
  | afterGetSingleFieldResult s s' indexRow indexColumn _ hstep ih =>
    have hsame : (getSingleFieldResult s indexRow indexColumn).state? = some s := by
      unfold getSingleFieldResult
      split_ifs
      · rfl
      · cases s.dbResult with
        | none => rfl
        | some dbResult =>
          simp only
          cases StdMap.find dbResult (toInt32 indexRow) with
          | none => rfl
          | some rowMap =>
            simp only
            cases StdMap.find rowMap (toInt32 indexColumn) <;> rfl
    rw [hsame] at hstep
    simp only [Option.some.injEq] at hstep
    subst hstep
    exact ih

/-- C3: on every reachable object, with `R = getRowCount()` and `F = getFieldCount()`,
`getSingleFieldResult(r,c)` throws `IndexOutOfBounceException` if and only if `r >= R`
or `c >= F`, and otherwise returns a text with no other failure; when both counts are
zero it throws `IndexOutOfBounceException` at every index pair. -/
theorem C3_index_bounds (s : MySQLConnector) (hs : Reachable s) (r c : Nat) :
    ((getSingleFieldResult s r c).exn? = some .IndexOutOfBounceException ↔
      (r ≥ getRowCount s ∨ c ≥ getFieldCount s)) ∧
    (r < getRowCount s → c < getFieldCount s →
      ∃ text, getSingleFieldResult s r c = .ret text s []) ∧
    (getRowCount s = 0 → getFieldCount s = 0 →
      getSingleFieldResult s r c = .thrown .IndexOutOfBounceException s []) := by
  have hcomplete := cacheComplete_of_reachable s hs
  have hin : r < getRowCount s → c < getFieldCount s →
      ∃ text, getSingleFieldResult s r c = .ret text s [] := by
    intro hr hc
    simp only [getRowCount, getFieldCount] at hr hc
    have hcond : ¬ (r < 0 ∨ r ≥ s.row_count ∨ c < 0 ∨ c ≥ s.field_count) := by omega
    cases hdb : s.dbResult with
    | none =>
      refine ⟨"NULL", ?_⟩
      simp only [getSingleFieldResult, if_neg hcond, hdb]
    | some dbResult =>
      obtain ⟨rowMap, hrow, hcols⟩ := hcomplete dbResult hdb r hr
      obtain ⟨text, htext⟩ := hcols c hc
      refine ⟨text, ?_⟩
      simp only [getSingleFieldResult, if_neg hcond, hdb, hrow, htext]
  have hout : (r ≥ getRowCount s ∨ c ≥ getFieldCount s) →
      getSingleFieldResult s r c = .thrown .IndexOutOfBounceException s [] := by
    intro h
    simp only [getRowCount, getFieldCount] at h
    have hcond : r < 0 ∨ r ≥ s.row_count ∨ c < 0 ∨ c ≥ s.field_count := by omega
    simp only [getSingleFieldResult, if_pos hcond]
  refine ⟨⟨fun h => ?_, fun h => ?_⟩, hin, fun h0 _ => hout (Or.inl (by omega))⟩
  · by_contra hno
    obtain ⟨text, htext⟩ := hin (by omega) (by omega)
    rw [htext] at h
    simp [Run.exn?] at h
  · rw [hout h]; rfl

/-- C3 on the connector that holds the `users` result, at the index pair `(0,1)`. -/
theorem C3_index_bounds_witness :
    ((getSingleFieldResult cachedUsers 0 1).exn? = some .IndexOutOfBounceException ↔
      (0 ≥ getRowCount cachedUsers ∨ 1 ≥ getFieldCount cachedUsers)) ∧
    (0 < getRowCount cachedUsers → 1 < getFieldCount cachedUsers →
      ∃ text, getSingleFieldResult cachedUsers 0 1 = .ret text cachedUsers []) ∧
    (getRowCount cachedUsers = 0 → getFieldCount cachedUsers = 0 →
      getSingleFieldResult cachedUsers 0 1 =
        .thrown .IndexOutOfBounceException cachedUsers []) :=
  C3_index_bounds cachedUsers
    (Reachable.afterQueryDatabase connected cachedUsers (some selectUsers) ⟨0, some usersResult⟩
      (Reachable.afterStartConnection exampleConnector connected ⟨some 1, some 1⟩
        (Reachable.constructed _ _ _ _ _) (by decide))
      (by decide))
    0 1

/-! ## The first `SELECT` on an object without a cache -/

/-- On an object without a cache, a `SELECT`-style query that the library accepts and
answers with a well-formed result returns normally; the counts are the library's, and
`getSingleFieldResult(r,c)` within the counts returns the text of the library's cell at
row `r mod 2^32`, column `c`: the cache key of a row is its index converted to `int`, and
`insert` keeps the first row stored under a key. -/
theorem queryDatabase_first_select (s : MySQLConnector) (hfresh : s.dbResult = none)
    (command : List Char) (lib : QueryLib) (res : MYSQL_RES)
    (hsel : (cstr command).take 6 = SELECT_upper ∨ (cstr command).take 6 = SELECT_lower)
    (hok : lib.query = 0) (hres : lib.store_result = some res) (hwf : res.WellFormed) :
    ∃ s' calls, queryDatabase s (some command) lib = .ret () s' calls ∧
      getRowCount s' = mysql_num_rows res ∧ getFieldCount s' = mysql_num_fields res ∧
      ∀ r c, r < mysql_num_rows res → c < mysql_num_fields res →
        ∃ cell, res.cell (r % 2 ^ 32) c = some cell ∧
          getSingleFieldResult s' r c = .ret (cellText cell) s' [] := by
  obtain ⟨hR, hF, _⟩ := afterClean_of_no_cache s res hfresh
  obtain ⟨hlen, hrows⟩ := hwf
  have hF32 : mysql_num_fields res < 2 ^ 32 := Nat.mod_lt _ (by norm_num)
  obtain ⟨p, hloop⟩ := resultLoop_defined (mysql_num_fields res) (mysql_num_rows res) 0 res []
    (by omega) (fun row hrow => by rw [hrows row hrow])
  obtain ⟨res', dbResult⟩ := p
  have hq := queryDatabase_select s command lib res hsel hok hres
  rw [hR, hF, hloop] at hq
  refine ⟨_, _, hq, hR, hF, ?_⟩
  intro r c hr hc
  have hk : r % 2 ^ 32 < mysql_num_rows res :=
    lt_of_le_of_lt (Nat.mod_le r (2 ^ 32)) hr
  have hk32 : r % 2 ^ 32 < 2 ^ 32 := Nat.mod_lt _ (by norm_num)
  obtain ⟨rowMap, hrowMap, hfindRow⟩ := resultLoop_find (mysql_num_fields res)
    (mysql_num_rows res) 0 res res' [] dbResult hloop (r % 2 ^ 32) hk rfl
    (fun k' hk' heq => by
      rw [Nat.zero_add, Nat.zero_add] at heq
      have := toInt32_inj k' (r % 2 ^ 32) (by omega) hk32 heq
      omega)
  rw [Nat.zero_add, toInt32_mod] at hfindRow
  obtain ⟨cells, cell, hcells, hcell, hfindCell⟩ := rowLoop_find (res.data.get? (r % 2 ^ 32))
    (mysql_num_fields res) 0 [] rowMap hrowMap c (Nat.zero_le c) (by omega) rfl
    (fun c' _ hc' heq => by
      have := toInt32_inj c' c (by omega) (by omega) heq
      omega)
  refine ⟨cell, ?_, ?_⟩
  · simp only [MYSQL_RES.cell, hcells, hcell]
  · have hcond : ¬ (r < 0 ∨ r ≥ (afterClean s res).row_count ∨ c < 0 ∨
        c ≥ (afterClean s res).field_count) := by
      rw [hR, hF]; omega
    simp only [getSingleFieldResult, if_neg hcond, hfindRow, hfindCell]

theorem usersResult_wellFormed : usersResult.WellFormed := by
  refine ⟨rfl, ?_⟩
  intro row hrow
  simp only [usersResult, List.mem_cons, List.mem_singleton, List.not_mem_nil, or_false] at hrow
  rcases hrow with h | h <;> subst h <;> rfl

/-- C2, for results of at most `2^32` rows: on an object without a cache (such as a freshly constructed and
connected one), a `SELECT`-style query that the library accepts and answers with a
well-formed result of `R` rows and `F` fields, `R` at most `2^32`, returns normally and
leaves `getRowCount() = R`, `getFieldCount() = F` and, for every `r < R` and `c < F`,
`getSingleFieldResult(r,c)` equal to the text of the library's cell `(r,c)`, or `NULL`
where that cell is SQL NULL. -/
theorem C2_first_select_fills_cache (s : MySQLConnector) (hfresh : s.dbResult = none)
    (command : List Char) (lib : QueryLib) (res : MYSQL_RES)
    (hsel : (cstr command).take 6 = SELECT_upper ∨ (cstr command).take 6 = SELECT_lower)
    (hok : lib.query = 0) (hres : lib.store_result = some res) (hwf : res.WellFormed)
    (hsmall : mysql_num_rows res ≤ 2 ^ 32) :
    ∃ s' calls, queryDatabase s (some command) lib = .ret () s' calls ∧
      getRowCount s' = mysql_num_rows res ∧ getFieldCount s' = mysql_num_fields res ∧
      ∀ r c, r < mysql_num_rows res → c < mysql_num_fields res →
        ∃ cell, res.cell r c = some cell ∧
          getSingleFieldResult s' r c = .ret (cellText cell) s' [] := by
  obtain ⟨s', calls, hq, hR, hF, hcells⟩ :=
    queryDatabase_first_select s hfresh command lib res hsel hok hres hwf
  refine ⟨s', calls, hq, hR, hF, fun r c hr hc => ?_⟩
  have hmod : r % 2 ^ 32 = r := Nat.mod_eq_of_lt (by omega)
  have h := hcells r c hr hc
  rw [hmod] at h
  exact h

/-- The scenario of C2: connect, then `SELECT id,name FROM users` answered with the rows
`(1, Alice)`, `(2, Bob)`. -/
theorem C2_first_select_fills_cache_witness :
    connected.dbResult = none ∧ usersResult.WellFormed ∧
    ∃ s' calls, queryDatabase connected (some selectUsers) ⟨0, some usersResult⟩ =
        .ret () s' calls ∧
      getRowCount s' = 2 ∧ getFieldCount s' = 2 ∧
      getSingleFieldResult s' 0 1 = .ret "Alice" s' [] ∧
      getSingleFieldResult s' 1 0 = .ret "2" s' [] := by
  obtain ⟨s', calls, hq, hR, hF, hcells⟩ :=
    C2_first_select_fills_cache connected rfl selectUsers ⟨0, some usersResult⟩ usersResult
      (by decide) rfl rfl usersResult_wellFormed (by decide)
  refine ⟨rfl, usersResult_wellFormed, s', calls, hq, hR, hF, ?_, ?_⟩
  · obtain ⟨cell, h1, h2⟩ := hcells 0 1 (by decide) (by decide)
    have h3 : usersResult.cell 0 1 = some (some "Alice") := rfl
    rw [h3] at h1
    simp only [Option.some.injEq] at h1
    subst h1
    exact h2
  · obtain ⟨cell, h1, h2⟩ := hcells 1 0 (by decide) (by decide)
    have h3 : usersResult.cell 1 0 = some (some "2") := rfl
    rw [h3] at h1
    simp only [Option.some.injEq] at h1
    subst h1
    exact h2

theorem firstThenLast_length (n : Nat) : (firstThenLast n).length = n + 2 := by
  simp [firstThenLast]

theorem firstThenLast_row_length (n : Nat) (row : MYSQL_ROW) (h : row ∈ firstThenLast n) :
    row.length = 1 := by
  simp only [firstThenLast, List.mem_cons, List.mem_append, List.mem_replicate,
    List.mem_singleton, List.not_mem_nil, or_false] at h
  rcases h with h | ⟨_, h⟩ | h <;> subst h <;> rfl

theorem firstThenLast_get?_zero (n : Nat) : (firstThenLast n).get? 0 = some [some "first"] := rfl

theorem firstThenLast_get?_last (n k : Nat) (hk : k = n + 1) :
    (firstThenLast n).get? k = some [some "last"] := by
  subst hk
  simp [firstThenLast, List.getElem?_append_right]

theorem cell_of_get? (res : MYSQL_RES) (r c : Nat) (row : MYSQL_ROW) (cell : Option String)
    (hrow : res.data.get? r = some row) (hcell : row.get? c = some cell) :
    res.cell r c = some cell := by
  simp only [MYSQL_RES.cell, hrow, hcell]

theorem manyRows_wellFormed : manyRows.WellFormed := by
  have hrows : mysql_num_rows manyRows = 2 ^ 32 + 1 := by
    show (2 ^ 32 + 1) % 2 ^ 64 = 2 ^ 32 + 1
    norm_num
  refine ⟨?_, ?_⟩
  · rw [hrows]
    show (firstThenLast (2 ^ 32 - 1)).length = 2 ^ 32 + 1
    rw [firstThenLast_length]
    norm_num
  · intro row hrow
    exact firstThenLast_row_length (2 ^ 32 - 1) row hrow

/-- C2 as stated fails at `2^32 + 1` rows: on the connected connector the first
`SELECT` succeeds with the well-formed result `manyRows`, the library's cell `(2^32, 0)`
is `last`, the row count is above `2^32`, and `getSingleFieldResult(2^32, 0)` returns
`first`, the text of row 0, whose key `0` is also the `int` that `2^32` converts to. -/
theorem C2_fails_beyond_int_keys :
    connected.dbResult = none ∧ manyRows.WellFormed ∧
    manyRows.cell (2 ^ 32) 0 = some (some "last") ∧
    ∃ s' calls, queryDatabase connected (some selectUsers) ⟨0, some manyRows⟩ =
        .ret () s' calls ∧
      2 ^ 32 < getRowCount s' ∧ 0 < getFieldCount s' ∧
      getSingleFieldResult s' (2 ^ 32) 0 = .ret "first" s' [] := by
  have hrows : mysql_num_rows manyRows = 2 ^ 32 + 1 := by
    show (2 ^ 32 + 1) % 2 ^ 64 = 2 ^ 32 + 1
    norm_num
  have hfields : mysql_num_fields manyRows = 1 := rfl
  have hlast : manyRows.cell (2 ^ 32) 0 = some (some "last") :=
    cell_of_get? manyRows (2 ^ 32) 0 [some "last"] (some "last")
      (firstThenLast_get?_last (2 ^ 32 - 1) (2 ^ 32) (by norm_num)) rfl
  have hfirst : manyRows.cell 0 0 = some (some "first") :=
    cell_of_get? manyRows 0 0 [some "first"] (some "first")
      (firstThenLast_get?_zero (2 ^ 32 - 1)) rfl
  obtain ⟨s', calls, hq, hR, hF, hcells⟩ :=
    queryDatabase_first_select connected rfl selectUsers ⟨0, some manyRows⟩ manyRows
      (by decide) rfl rfl manyRows_wellFormed
  refine ⟨rfl, manyRows_wellFormed, hlast, s', calls, hq, ?_, ?_, ?_⟩
  · rw [hR, hrows]; omega
  · rw [hF, hfields]; omega
  · obtain ⟨cell, h1, h2⟩ := hcells (2 ^ 32) 0 (by rw [hrows]; omega) (by rw [hfields]; omega)
    have hmod : 2 ^ 32 % 2 ^ 32 = 0 := by norm_num
    rw [hmod, hfirst] at h1
    simp only [Option.some.injEq] at h1
    subst h1
    exact h2

/-! ## The invariant of the cache -/

theorem afterClean_counts_le (s : MySQLConnector) (res : MYSQL_RES) :
    (afterClean s res).row_count ≤ mysql_num_rows res ∧
      (afterClean s res).field_count ≤ mysql_num_fields res ∧
      (afterClean s res).dbResult = none := by
  cases h : s.dbResult with
  | none =>
    obtain ⟨h1, h2, h3⟩ := afterClean_of_no_cache s res h
    exact ⟨by omega, by omega, h3⟩
  | some old =>
    obtain ⟨h1, h2, h3⟩ := afterClean_of_cache s res old h
    exact ⟨by omega, by omega, h3⟩

/-- The loops are defined on a well-formed result, with or without an earlier cache. -/
theorem resultLoop_defined_of_wellFormed (s : MySQLConnector) (res : MYSQL_RES)
    (hwf : res.WellFormed) :
    ∃ p, resultLoop (afterClean s res).field_count 0 (afterClean s res).row_count res [] =
      some p := by
  obtain ⟨h1, h2, _⟩ := afterClean_counts_le s res
  obtain ⟨hlen, hrows⟩ := hwf
  exact resultLoop_defined _ _ 0 res [] (by omega)
    (fun row hrow => by rw [hrows row hrow]; exact h2)

/-- With row and field counts up to `2^31`, the keys the loops leave are the indices. -/
theorem resultLoop_invariant (field_count row_count : Nat) (res res' : MYSQL_RES)
    (dbResult : StdMap (StdMap String))
    (h : resultLoop field_count 0 row_count res [] = some (res', dbResult))
    (hR : row_count ≤ 2 ^ 31) (hF : field_count ≤ 2 ^ 31) :
    (∀ z, z ∈ StdMap.keys dbResult ↔ 0 ≤ z ∧ z < (row_count : Int)) ∧
    ∀ e ∈ dbResult, ∀ z, z ∈ StdMap.keys e.2 ↔ 0 ≤ z ∧ z < (field_count : Int) := by
  have hrange : ∀ (n : Nat), n ≤ 2 ^ 31 → ∀ z : Int,
      (∃ k, 0 ≤ k ∧ k < 0 + n ∧ z = toInt32 k) ↔ 0 ≤ z ∧ z < (n : Int) := by
    intro n hn z
    constructor
    · rintro ⟨k, _, hk, hz⟩
      rw [toInt32_of_lt k (by omega)] at hz
      omega
    · rintro ⟨h0, h1⟩
      refine ⟨z.toNat, Nat.zero_le _, by omega, ?_⟩
      rw [toInt32_of_lt _ (by omega)]
      omega
  constructor
  · intro z
    rw [resultLoop_keys field_count row_count 0 res res' [] dbResult h z, ← hrange row_count hR z]
    constructor
    · rintro (h1 | h1)
      · simp [StdMap.keys] at h1
      · exact h1
    · intro h1; exact Or.inr h1
  · intro e he z
    rcases resultLoop_values field_count row_count 0 res res' [] dbResult h e he with h1 | ⟨row, h1⟩
    · simp at h1
    · rw [rowLoop_keys row field_count 0 [] e.2 h1 z, ← hrange field_count hF z]
      constructor
      · rintro (h2 | h2)
        · simp [StdMap.keys] at h2
        · exact h2
      · intro h2; exact Or.inr h2

theorem cacheInvariant_queryDatabase (s s' : MySQLConnector) (hs : CacheInvariant s)
    (command : Option (List Char)) (lib : QueryLib)
    (hlib : ∀ res, lib.store_result = some res →
      mysql_num_rows res ≤ 2 ^ 31 ∧ mysql_num_fields res ≤ 2 ^ 31)
    (h : (queryDatabase s command lib).state? = some s') : CacheInvariant s' := by
  rcases queryDatabase_cases s command lib with
    hq | hq | hq | ⟨hq, _⟩ | ⟨res, res', m, hres, hloop, hq⟩
  · rw [hq] at h; simp only [Run.state?, Option.some.injEq] at h; subst h; exact hs
  · rw [hq] at h; simp only [Run.state?, Option.some.injEq] at h; subst h; exact hs
  · rw [hq] at h; simp only [Run.state?, Option.some.injEq] at h; subst h; exact hs
  · rw [hq] at h; simp [Run.state?] at h
  · rw [hq] at h
    simp only [Run.state?, Option.some.injEq] at h
    subst h
    obtain ⟨hR, hF⟩ := hlib res hres
    obtain ⟨h1, h2, _⟩ := afterClean_counts_le s res
    refine ⟨fun hnone => by simp at hnone, fun dbResult hdb => ?_⟩
    simp only [Option.some.injEq] at hdb
    subst hdb
    exact resultLoop_invariant (afterClean s res).field_count (afterClean s res).row_count
      res res' m hloop (by omega) (by omega)

theorem queryDatabase_defined (s : MySQLConnector) (command : Option (List Char)) (lib : QueryLib)
    (res : MYSQL_RES) (hres : lib.store_result = some res) (hwf : res.WellFormed) :
    ∃ s', (queryDatabase s command lib).state? = some s' := by
  rcases queryDatabase_cases s command lib with
    hq | hq | hq | ⟨_, hq⟩ | ⟨res1, res', m, _, _, hq⟩
  · rw [hq]; exact ⟨_, rfl⟩
  · rw [hq]; exact ⟨_, rfl⟩
  · rw [hq]; exact ⟨_, rfl⟩
  · rcases hq with hq | ⟨res1, hres1, hnone⟩
    · rw [hres] at hq; simp at hq
    · rw [hres] at hres1
      simp only [Option.some.injEq] at hres1
      subst hres1
      obtain ⟨p, hp⟩ := resultLoop_defined_of_wellFormed s res hwf
      rw [hp] at hnone
      simp at hnone
  · rw [hq]; exact ⟨_, rfl⟩

theorem cacheInvariant_connected : CacheInvariant connected := by
  refine ⟨fun _ => ⟨rfl, rfl⟩, fun dbResult h => ?_⟩
  have h0 : connected.dbResult = none := rfl
  rw [h0] at h
  simp at h

/-- C8, for results of at most `2^31` rows and `2^31` fields: the predicate (no cache: both counts zero; a cache: row keys exactly
`0 .. row_count - 1`, column keys of every row exactly `0 .. field_count - 1`) holds of
every constructed connector and, from an object where it holds, of what is left by
`startConnection` (success or failure), by `queryDatabase` (success or failure) when the
library's stored result is well formed and reports at most `2^31` rows and at most
`2^31` fields, by `changeDatabase` and by the getters; `getRowCount` and `getFieldCount`
only read the counts. -/
theorem C8_cache_invariant (s : MySQLConnector) (hs : CacheInvariant s) :
    (∀ hostName userName password dbName port,
      CacheInvariant (ctor hostName userName password dbName port)) ∧
    (∀ lib, ∃ s', (startConnection s lib).state? = some s' ∧ CacheInvariant s') ∧
    (∀ command lib res, lib.store_result = some res → res.WellFormed →
      mysql_num_rows res ≤ 2 ^ 31 → mysql_num_fields res ≤ 2 ^ 31 →
      ∃ s', (queryDatabase s command lib).state? = some s' ∧ CacheInvariant s') ∧
    (∀ command lib s', lib.store_result = none →
      (queryDatabase s command lib).state? = some s' → CacheInvariant s') ∧
    (∀ newDBName select_db,
      ∃ s', (changeDatabase s newDBName select_db).state? = some s' ∧ CacheInvariant s') ∧
    (∀ r c, (getSingleFieldResult s r c).state? = some s) ∧
    (∀ s', (getSingleRowResult s).state? = some s' → CacheInvariant s') := by
  refine ⟨?_, ?_, ?_, ?_, ?_, ?_, ?_⟩
  · intro hostName userName password dbName port
    exact ⟨fun _ => ⟨rfl, rfl⟩, fun dbResult h => by simp [ctor] at h⟩
  · intro lib
    cases hrc : lib.real_connect with
    | none =>
      refine ⟨emptyMemory { s with connect := lib.init },
        by simp only [startConnection, hrc, Run.state?], ?_⟩
      cases hold : s.dbResult with
      | none =>
        obtain ⟨h1, h2⟩ := hs.1 hold
        refine ⟨fun _ => ?_, fun dbResult h => ?_⟩
        · simp [emptyMemory, cleanResultMemory, hold, h1, h2]
        · simp [emptyMemory, cleanResultMemory, hold] at h
      | some old =>
        refine ⟨fun _ => ?_, fun dbResult h => ?_⟩
        · simp [emptyMemory, cleanResultMemory, hold]
        · simp [emptyMemory, cleanResultMemory, hold] at h
    | some handle =>
      exact ⟨{ s with connect := lib.init }, by simp only [startConnection, hrc, Run.state?], hs⟩
  · intro command lib res hres hwf hR hF
    obtain ⟨s', hs'⟩ := queryDatabase_defined s command lib res hres hwf
    refine ⟨s', hs', cacheInvariant_queryDatabase s s' hs command lib ?_ hs'⟩
    intro res1 hres1
    rw [hres] at hres1
    simp only [Option.some.injEq] at hres1
    subst hres1
    exact ⟨hR, hF⟩
  · intro command lib s' hnone hstep
    refine cacheInvariant_queryDatabase s s' hs command lib ?_ hstep
    intro res1 hres1
    rw [hnone] at hres1
    simp at hres1
  · intro newDBName select_db
    cases newDBName with
    | none => exact ⟨s, rfl, hs⟩
    | some name =>
      by_cases hz : select_db = 0
      · exact ⟨s, by simp [changeDatabase, hz, Run.state?], hs⟩
      · exact ⟨s, by simp [changeDatabase, hz, Run.state?], hs⟩
  · intro r c
    unfold getSingleFieldResult
    split_ifs
    · rfl
    · cases s.dbResult with
      | none => rfl
      | some dbResult =>
        simp only
        cases StdMap.find dbResult (toInt32 r) with
        | none => rfl
        | some rowMap =>
          simp only
          cases StdMap.find rowMap (toInt32 c) <;> rfl
  · intro s' hstep
    cases hres : s.res with
    | none => simp [getSingleRowResult, hres, Run.state?] at hstep
    | some res =>
      simp only [getSingleRowResult, hres, Run.state?, Option.some.injEq] at hstep
      subst hstep
      exact hs

/-- C8 on the connected connector and the `users` query. -/
theorem C8_cache_invariant_witness :
    CacheInvariant connected ∧ usersResult.WellFormed ∧
    ∃ s', (queryDatabase connected (some selectUsers) ⟨0, some usersResult⟩).state? = some s' ∧
      CacheInvariant s' :=
  ⟨cacheInvariant_connected, usersResult_wellFormed,
    (C8_cache_invariant connected cacheInvariant_connected).2.2.1 (some selectUsers)
      ⟨0, some usersResult⟩ usersResult rfl usersResult_wellFormed (by decide) (by decide)⟩

theorem wideRows_wellFormed : wideRows.WellFormed := by
  have hrows : mysql_num_rows wideRows = 2 ^ 31 + 1 := by
    show (2 ^ 31 + 1) % 2 ^ 64 = 2 ^ 31 + 1
    norm_num
  refine ⟨?_, ?_⟩
  · rw [hrows]
    exact List.length_replicate (2 ^ 31 + 1) [some "x"]
  · intro row hrow
    have h : row = [some "x"] := List.eq_of_mem_replicate hrow
    rw [h]
    rfl

/-- C8 as stated fails at `2^31 + 1` rows: the predicate holds of the connected
connector, the first `SELECT` succeeds with the well-formed result `wideRows`, and the
predicate does not hold of what it leaves: row `2^31` is stored under the negative key
that `2^31` converts to. -/
theorem C8_fails_beyond_int_keys :
    CacheInvariant connected ∧ wideRows.WellFormed ∧
    ∃ s' calls, queryDatabase connected (some selectUsers) ⟨0, some wideRows⟩ =
        .ret () s' calls ∧ ¬ CacheInvariant s' := by
  have hrows : mysql_num_rows wideRows = 2 ^ 31 + 1 := by
    show (2 ^ 31 + 1) % 2 ^ 64 = 2 ^ 31 + 1
    norm_num
  obtain ⟨hR, _, _⟩ := afterClean_of_no_cache connected wideRows rfl
  obtain ⟨p, hloop⟩ := resultLoop_defined_of_wellFormed connected wideRows wideRows_wellFormed
  obtain ⟨res', dbResult⟩ := p
  have hq := queryDatabase_select connected selectUsers ⟨0, some wideRows⟩ wideRows
    (by decide) rfl rfl
  rw [hloop] at hq
  refine ⟨cacheInvariant_connected, wideRows_wellFormed, _, _, hq, ?_⟩
  intro hinv
  have hkeys := (hinv.2 dbResult rfl).1 (toInt32 (2 ^ 31))
  have hmem : toInt32 (2 ^ 31) ∈ StdMap.keys dbResult :=
    (resultLoop_keys _ _ 0 wideRows res' [] dbResult hloop (toInt32 (2 ^ 31))).mpr
      (Or.inr ⟨2 ^ 31, Nat.zero_le _, by rw [hR, hrows]; omega, rfl⟩)
  have hneg := toInt32_neg (2 ^ 31) (le_refl _) (by norm_num)
  have := (hkeys.mp hmem).1
  omega
